import Mathlib

/-!
Shallow embedding of `frontend/src/metabase/lib/dataset.js`: column
resolution helpers and the `table.columns` settings sync.  JS values are
modelled by a small inductive (`JSValue`), field references (MBQL arrays
such as `["field-id", 1]`) by the inductive `FieldRef`, and the external
collaborators `StructuredQuery` / `Dimension` (imported by the module but
not part of this excerpt) are modelled from the specification.
-/

/-- A JS runtime value as it appears in dataset rows: `null`, a number
(modelled as `Int`; all inputs of interest are integral), a string or a
boolean. -/
inductive JSValue where
  | null : JSValue
  | num : Int → JSValue
  | str : String → JSValue
  | bool : Bool → JSValue
deriving DecidableEq

/-- An MBQL field reference, the array shapes produced and consumed by
`fieldRefForColumn`: `["field-id", id]`, legacy `["fk->", fk, id]`, the
normalized fk shape produced by `Dimension.parseMBQL`,
`["expression", name]`, `["aggregation", idx]`, and the refinement
wrappers `["datetime-field", ref, unit]` / `["binning-strategy", ref, s]`
that a dimension may stack on a base reference.  Equality is structural,
matching `_.isEqual` on the JS arrays. -/
inductive FieldRef where
  | fieldId : Int → FieldRef
  | fkLegacy : Int → Int → FieldRef
  | fkNormalized : Int → Int → FieldRef
  | expression : String → FieldRef
  | aggregation : Int → FieldRef
  | datetimeField : FieldRef → String → FieldRef
  | binningStrategy : FieldRef → String → FieldRef
deriving DecidableEq

/-- A result column's `id` attribute: absent (`null`/`undefined`), an
integer id, or — for nested queries — already a field-reference array. -/
inductive ColumnId where
  | null : ColumnId
  | intId : Int → ColumnId
  | ref : FieldRef → ColumnId
deriving DecidableEq

/-- `binning_info` attribute of a column; `bin_width` may be absent. -/
structure BinningInfo where
  bin_width : Option Int
deriving DecidableEq

/-- A dataset result column (the attributes this module reads). -/
structure Column where
  id : ColumnId
  fk_field_id : Option Int
  expression_name : Option String
  source : Option String
  name : String
  binning_info : Option BinningInfo
deriving DecidableEq

/-- A `table.columns` visualization-settings entry. -/
structure ColumnSetting where
  name : String
  fieldRef : Option FieldRef
  enabled : Bool
deriving DecidableEq

/-- `{ rows: [...] }` portion of a dataset result. -/
structure DatasetData where
  rows : List (List JSValue)
deriving DecidableEq

/-- Underscore's `_.findIndex`: index of the first element satisfying the
predicate, `-1` when there is none.  Also models `Array.prototype.indexOf`
when instantiated with an equality predicate. -/
def findIndexJS {α : Type} (p : α → Bool) (l : List α) : Int :=
  match l.findIdx? p with
  | some i => (i : Int)
  | none => -1

/-- `datasetContainsNoResults(data)`: `data.rows.length === 0 ||
_.isEqual(data.rows, [[null]])`. -/
def datasetContainsNoResults (data : DatasetData) : Bool :=
  data.rows.length == 0 || data.rows == [[JSValue.null]]

/-- `rangeForValue(value, column)`: when `value` is a number and
`column.binning_info.bin_width` is truthy (present and nonzero), returns
`[value, value + bin_width]`; otherwise `undefined`. -/
def rangeForValue (value : JSValue) (column : Option Column) : Option (Int × Int) :=
  match value, column with
  | JSValue.num v, some col =>
    match col.binning_info with
    | some bi =>
      match bi.bin_width with
      | some w => if w != 0 then some (v, v + w) else none
      | none => none
    | none => none
  | _, _ => none

/-- `fieldRefForColumn(column, columns)`: resolution order is id-as-array
passthrough, fk pair, plain id, expression name, then aggregation index
computed as `columns.filter(c => c.source === "aggregation").indexOf(column)`
(only when the `columns` argument was supplied); `null` when nothing
resolves. -/
def fieldRefForColumn (column : Column) (columns : Option (List Column)) : Option FieldRef :=
  match column.id with
  | ColumnId.ref r => some r
  | ColumnId.intId i =>
    match column.fk_field_id with
    | some fk => some (FieldRef.fkLegacy fk i)
    | none => some (FieldRef.fieldId i)
  | ColumnId.null =>
    match column.expression_name with
    | some e => some (FieldRef.expression e)
    | none =>
      if column.source == some "aggregation" then
        match columns with
        | some cols =>
          let aggIndex :=
            findIndexJS (fun c => c == column)
              (cols.filter fun c => c.source == some "aggregation")
          if aggIndex ≥ 0 then some (FieldRef.aggregation aggIndex) else none
        | none => none
      else none

/-- The key produced by `keyForColumn`: either `["ref", ref]` or
`["name", name]`.  `JSON.stringify` is injective on these two array
shapes (a canonical deterministic encoding), so the string it produces is
modelled by this tagged value itself. -/
inductive ColumnKey where
  | ref : FieldRef → ColumnKey
  | name : String → ColumnKey
deriving DecidableEq

/-- `keyForColumn(column)`: serialize `["ref", fieldRefForColumn(column)]`
when a reference resolves (no `columns` argument, so the aggregation
branch can never fire), else `["name", column.name]`. -/
def keyForColumn (column : Column) : ColumnKey :=
  match fieldRefForColumn column none with
  | some r => ColumnKey.ref r
  | none => ColumnKey.name column.name

/-- Modelled from the spec: `Dimension.parseMBQL` followed by `.mbql()`
("a canonicalization step that parses it into a dimension-equivalent
structured form and re-serializes it, collapsing legacy reference shapes
into current canonical shape").  The legacy shape in this module is
`["fk->", fk, id]`; other shapes are already canonical and re-serialize
to themselves (refinement wrappers canonicalize their base). -/
def canonicalizeFieldRef : FieldRef → FieldRef
  | FieldRef.fkLegacy fk i => FieldRef.fkNormalized fk i
  | FieldRef.datetimeField b u => FieldRef.datetimeField (canonicalizeFieldRef b) u
  | FieldRef.binningStrategy b s => FieldRef.binningStrategy (canonicalizeFieldRef b) s
  | r => r

/-- `normalizeFieldRef(fieldRef)`: `Dimension.parseMBQL(fieldRef)` and, if
a dimension was obtained, its `.mbql()`; `null` stays `null`
(see `canonicalizeFieldRef` for the spec-modelled parser). -/
def normalizeFieldRef : Option FieldRef → Option FieldRef
  | none => none
  | some r => some (canonicalizeFieldRef r)

/-- `findColumnIndexForColumnSetting(columns, columnSetting)`: normalize
the setting's `fieldRef`; if non-null, return the index of the first
column whose own normalized reference (computed without the `columns`
argument) is `_.isEqual` to it; otherwise fall back to the first column
whose `name` equals the setting's name; `-1` when neither matches. -/
def findColumnIndexForColumnSetting (columns : List Column) (columnSetting : ColumnSetting) :
    Int :=
  match normalizeFieldRef columnSetting.fieldRef with
  | some fr =>
    let index :=
      findIndexJS (fun col => normalizeFieldRef (fieldRefForColumn col none) == some fr) columns
    if index ≥ 0 then index
    else findIndexJS (fun col => col.name == columnSetting.name) columns
  | none => findIndexJS (fun col => col.name == columnSetting.name) columns

/-- `findColumnForColumnSetting(columns, columnSetting)`: the column at the
found index, or `null`. -/
def findColumnForColumnSetting (columns : List Column) (columnSetting : ColumnSetting) :
    Option Column :=
  let index := findColumnIndexForColumnSetting columns columnSetting
  if index ≥ 0 then columns[index.toNat]? else none

/-- Modelled from the spec: a dimension object (library class not in this
excerpt) exposing `.mbql()` and a display name; `columnNames()` reads the
name, `addField` consumes the `mbql` reference. -/
structure Dimension where
  mbql : FieldRef
  name : String
deriving DecidableEq

/-- Modelled from the spec: the base reference of a dimension, with
binning / temporal-bucketing refinements stripped — the identity compared
by `isSameBaseDimension`, "a caller-defined equivalence broader than
strict equality". -/
def FieldRef.baseRef : FieldRef → FieldRef
  | FieldRef.datetimeField b _ => b.baseRef
  | FieldRef.binningStrategy b _ => b.baseRef
  | r => r

/-- Modelled from the spec: `Dimension.isSameBaseDimension(other)` —
equality of the refinement-stripped base references. -/
def Dimension.isSameBaseDimension (d e : Dimension) : Bool :=
  d.mbql.baseRef == e.mbql.baseRef

/-- Modelled from the spec: the dimension a structured query constructs
for an explicitly added field reference (display name resolved elsewhere;
irrelevant to this module, which only compares base references of rebuilt
dimensions). -/
def dimensionForRef (r : FieldRef) : Dimension :=
  ⟨r, ""⟩

/-- Modelled from the spec: the slice of `StructuredQuery` this module
uses — a default (table) dimension list and an optional explicit `fields`
list, with `clearFields` / `addField` / `columnDimensions` /
`columnNames`. -/
structure StructuredQuery where
  tableDimensions : List Dimension
  fields : Option (List FieldRef)
deriving DecidableEq

/-- Modelled from the spec: `query.clearFields()` — drop the explicit
field list, reverting to "all default fields". -/
def StructuredQuery.clearFields (q : StructuredQuery) : StructuredQuery :=
  { q with fields := none }

/-- Modelled from the spec: `query.addField(ref)` — append one reference
to the explicit field list (starting one if absent). -/
def StructuredQuery.addField (q : StructuredQuery) (r : FieldRef) : StructuredQuery :=
  { q with fields := some ((q.fields.getD []) ++ [r]) }

/-- Modelled from the spec: `query.columnDimensions()` — the dimensions of
the explicit field list when one is set, else the default table
dimensions. -/
def StructuredQuery.columnDimensions (q : StructuredQuery) : List Dimension :=
  match q.fields with
  | some fs => fs.map dimensionForRef
  | none => q.tableDimensions

/-- Modelled from the spec: `query.columnNames()`. -/
def StructuredQuery.columnNames (q : StructuredQuery) : List String :=
  q.columnDimensions.map Dimension.name

/-- A question's query: structured, or some other kind (native). -/
inductive Query where
  | structured : StructuredQuery → Query
  | native : Query
deriving DecidableEq

/-- The visualization settings this module reads: the optional
`table.columns` entry of `question.settings()`. -/
structure VisualizationSettings where
  tableColumns : Option (List ColumnSetting)
deriving DecidableEq

/-- Modelled from the spec: a question holding a query and settings;
`query.question()` is the question with that query installed. -/
structure Question where
  query : Query
  settings : VisualizationSettings
deriving DecidableEq

/-- One iteration of the `for (const columnSetting of columnSettings)`
loop body of `syncTableColumnsToQuery`: skip disabled settings; add the
setting's own `fieldRef` when present (truthy); else look the name up in
the baseline `columnNames` and add the matching baseline dimension's
`mbql()`; on an empty name or a missed lookup, `console.warn` and leave
the query unchanged. -/
def addSettingField (columnDimensions : List Dimension) (columnNames : List String)
    (query : StructuredQuery) (columnSetting : ColumnSetting) : StructuredQuery :=
  if columnSetting.enabled then
    match columnSetting.fieldRef with
    | some fr => query.addField fr
    | none =>
      if columnSetting.name != "" then
        match columnNames.findIdx? (fun n => n == columnSetting.name) with
        | some index =>
          match columnDimensions[index]? with
          | some d => query.addField d.mbql
          | none => query
        | none => query
      else query
  else query

/-- The field-list rebuild phase of `syncTableColumnsToQuery`: clear
`fields`, capture the baseline dimensions and names, then fold the loop
body over the settings in order. -/
def rebuildFields (q0 : StructuredQuery) (columnSettings : List ColumnSetting) :
    StructuredQuery :=
  let query := q0.clearFields
  columnSettings.foldl (addSettingField query.columnDimensions query.columnNames) query

/-- `syncTableColumnsToQuery(question)`: when the query is structured and
a `table.columns` setting exists, rebuild the explicit field list from
the enabled settings; if the rebuilt column dimensions match the baseline
pairwise by `isSameBaseDimension` (same length), return the question with
fields cleared again, else with the rebuilt field list; otherwise return
the question unchanged. -/
def syncTableColumnsToQuery (question : Question) : Question :=
  match question.query, question.settings.tableColumns with
  | Query.structured q0, some columnSettings =>
    let query := rebuildFields q0 columnSettings
    let columnDimensions := q0.clearFields.columnDimensions
    let newColumnDimensions := query.columnDimensions
    if columnDimensions.length == newColumnDimensions.length
        && (columnDimensions.zip newColumnDimensions).all
          (fun p => p.1.isSameBaseDimension p.2) then
      { question with query := Query.structured query.clearFields }
    else
      { question with query := Query.structured query }
  | _, _ => question

/-- Example column whose `bin_width` is present but zero. -/
def zeroBinColumn : Column :=
  ⟨ColumnId.null, none, none, none, "c", some ⟨some 0⟩⟩

/-- Example column with `bin_width` 10. -/
def tenBinColumn : Column :=
  ⟨ColumnId.null, none, none, none, "c", some ⟨some 10⟩⟩

/-- Example aggregation columns and a plain id column. -/
def countColumn : Column :=
  ⟨ColumnId.null, none, none, some "aggregation", "count", none⟩

def sumColumn : Column :=
  ⟨ColumnId.null, none, none, some "aggregation", "sum", none⟩

def plainColumn : Column :=
  ⟨ColumnId.intId 7, none, none, some "fields", "x", none⟩

def fkColumn : Column :=
  ⟨ColumnId.intId 2, some 5, none, none, "fk", none⟩

theorem findIndexJS_eq_neg_one {α : Type} {p : α → Bool} {l : List α}
    (h : ∀ a ∈ l, p a = false) : findIndexJS p l = -1 := by
  simp [findIndexJS, List.findIdx?_eq_none_iff.mpr h]

theorem findIndexJS_dichotomy {α : Type} (p : α → Bool) (l : List α) :
    0 ≤ findIndexJS p l ∨ findIndexJS p l = -1 := by
  unfold findIndexJS
  cases l.findIdx? p with
  | none => exact Or.inr rfl
  | some i => exact Or.inl (Int.natCast_nonneg i)

/-- C7: `datasetContainsNoResults` returns true exactly when `rows` is
empty or structurally equal to `[[null]]`; in particular it is false at
`{rows: [[1]]}` and at `{rows: [[null],[null]]}`. -/
theorem datasetContainsNoResults_spec (data : DatasetData) :
    (datasetContainsNoResults data = true ↔
      data.rows = [] ∨ data.rows = [[JSValue.null]]) ∧
    datasetContainsNoResults ⟨[[JSValue.num 1]]⟩ = false ∧
    datasetContainsNoResults ⟨[[JSValue.null], [JSValue.null]]⟩ = false := by
  refine ⟨?_, by decide, by decide⟩
  simp [datasetContainsNoResults, List.length_eq_zero]

/-- C7 witness: the characterization evaluated at `{rows: [[null]]}`. -/
theorem datasetContainsNoResults_spec_witness :
    datasetContainsNoResults ⟨[[JSValue.null]]⟩ = true :=
  (datasetContainsNoResults_spec ⟨[[JSValue.null]]⟩).1.mpr (Or.inr rfl)

/-- C10: a `bin_width` that is present but equal to 0 fails the JS
truthiness check, so `rangeForValue` returns `undefined` for a numeric
value just as if `bin_width` were absent. -/
theorem rangeForValue_zero_binwidth (v : Int) (col : Column) (bi : BinningInfo)
    (hbi : col.binning_info = some bi) (hw : bi.bin_width = some 0) :
    rangeForValue (JSValue.num v) (some col) = none := by
  simp [rangeForValue, hbi, hw]

/-- C10 witness: value 5 against a column with `bin_width` 0. -/
theorem rangeForValue_zero_binwidth_witness :
    rangeForValue (JSValue.num 5) (some zeroBinColumn) = none :=
  rangeForValue_zero_binwidth 5 zeroBinColumn ⟨some 0⟩ rfl rfl

/-- C8 counterexample: at value 5 and a column whose
`binning_info.bin_width` is set (to 0), the claim predicts
`[value, value + bin_width] = [5, 5]`, but the code returns `undefined`. -/
theorem rangeForValue_claim_counterexample :
    zeroBinColumn.binning_info = some ⟨some 0⟩ ∧
    rangeForValue (JSValue.num 5) (some zeroBinColumn) = none ∧
    rangeForValue (JSValue.num 5) (some zeroBinColumn) ≠ some (5, 5 + 0) := by
  decide

/-- C8 (amended): `rangeForValue(value, column)` returns
`[value, value + bin_width]` exactly when `value` is numeric and
`column.binning_info.bin_width` is set to a nonzero (truthy) width;
in every other case (column absent, value non-numeric, width absent or
zero) it returns `undefined`. -/
theorem rangeForValue_spec (value : JSValue) (column : Option Column) (p : Int × Int) :
    rangeForValue value column = some p ↔
      ∃ v col bi w, value = JSValue.num v ∧ column = some col ∧
        col.binning_info = some bi ∧ bi.bin_width = some w ∧ ¬ w = 0 ∧ p = (v, v + w) := by
  constructor
  · intro h
    cases value with
    | num v =>
      cases column with
      | some col =>
        cases hbi : col.binning_info with
        | some bi =>
          cases hw : bi.bin_width with
          | some w =>
            by_cases hw0 : w = 0
            · subst hw0
              simp [rangeForValue, hbi, hw] at h
            · simp [rangeForValue, hbi, hw, hw0] at h
              exact ⟨v, col, bi, w, rfl, rfl, hbi, hw, hw0, h.symm⟩
          | none => simp [rangeForValue, hbi, hw] at h
        | none => simp [rangeForValue, hbi] at h
      | none => simp [rangeForValue] at h
    | null => simp [rangeForValue] at h
    | str s => simp [rangeForValue] at h
    | bool b => simp [rangeForValue] at h
  · rintro ⟨v, col, bi, w, rfl, rfl, hbi, hw, hw0, rfl⟩
    simp [rangeForValue, hbi, hw, hw0]

/-- C8 witness: `rangeForValue(5, {binning_info: {bin_width: 10}})`
is `[5, 15]`. -/
theorem rangeForValue_spec_witness :
    rangeForValue (JSValue.num 5) (some tenBinColumn) = some (5, 15) :=
  (rangeForValue_spec (JSValue.num 5) (some tenBinColumn) (5, 15)).mpr
    ⟨5, tenBinColumn, ⟨some 10⟩, 10, rfl, rfl, rfl, rfl, by decide, by decide⟩

/-- C4: `fieldRefForColumn` resolves `column.id` first: an id that is
already a reference array is returned unchanged regardless of
`fk_field_id`; an integer id with `fk_field_id` set yields
`["fk->", fk_field_id, id]`; an integer id alone yields
`["field-id", id]`. -/
theorem fieldRefForColumn_id_order (column : Column) (columns : Option (List Column)) :
    (∀ r, column.id = ColumnId.ref r → fieldRefForColumn column columns = some r) ∧
    (∀ i fk, column.id = ColumnId.intId i → column.fk_field_id = some fk →
      fieldRefForColumn column columns = some (FieldRef.fkLegacy fk i)) ∧
    (∀ i, column.id = ColumnId.intId i → column.fk_field_id = none →
      fieldRefForColumn column columns = some (FieldRef.fieldId i)) := by
  refine ⟨?_, ?_, ?_⟩
  · intro r h
    simp [fieldRefForColumn, h]
  · intro i fk h hfk
    simp [fieldRefForColumn, h, hfk]
  · intro i h hfk
    simp [fieldRefForColumn, h, hfk]

/-- C4 witness: a column with id 2 and fk_field_id 5 resolves to
`["fk->", 5, 2]`. -/
theorem fieldRefForColumn_id_order_witness :
    fieldRefForColumn fkColumn none = some (FieldRef.fkLegacy 5 2) :=
  (fieldRefForColumn_id_order fkColumn none).2.1 2 5 rfl rfl

/-- C2: an aggregation-sourced column without id or expression name
resolves to `["aggregation", k]`, where `k` is its position among the
aggregation-sourced columns of the supplied array; without the `columns`
argument the result is `null`, and when the column is not present in the
supplied array no reference is produced. -/
theorem fieldRefForColumn_aggregation_spec (column : Column) (columns : List Column) (k : Int)
    (hid : column.id = ColumnId.null)
    (hexpr : column.expression_name = none)
    (hsrc : column.source = some "aggregation")
    (hk : findIndexJS (fun c => c == column)
        (columns.filter fun c => c.source == some "aggregation") = k)
    (hk0 : 0 ≤ k) :
    fieldRefForColumn column (some columns) = some (FieldRef.aggregation k) ∧
    fieldRefForColumn column none = none ∧
    ∀ cols2 : List Column, column ∉ cols2 → fieldRefForColumn column (some cols2) = none := by
  refine ⟨?_, ?_, ?_⟩
  · simp [fieldRefForColumn, hid, hexpr, hsrc, hk, hk0]
  · simp [fieldRefForColumn, hid, hexpr, hsrc]
  · intro cols2 hmem
    have hneg : findIndexJS (fun c => c == column)
        (cols2.filter fun c => c.source == some "aggregation") = -1 := by
      apply findIndexJS_eq_neg_one
      intro a ha
      have ha2 : a ∈ cols2 := List.mem_of_mem_filter ha
      have hne : a ≠ column := fun h => hmem (h ▸ ha2)
      simp [hne]
    simp [fieldRefForColumn, hid, hexpr, hsrc, hneg]

/-- C2 witness: the second aggregation column of
`[plainColumn, countColumn, sumColumn]` resolves to `["aggregation", 1]`. -/
theorem fieldRefForColumn_aggregation_witness :
    fieldRefForColumn sumColumn (some [plainColumn, countColumn, sumColumn]) =
      some (FieldRef.aggregation 1) :=
  (fieldRefForColumn_aggregation_spec sumColumn [plainColumn, countColumn, sumColumn] 1
    rfl rfl rfl (by decide) (by decide)).1

/-- C5: `keyForColumn` separates any two columns whose references
(resolved without a `columns` argument) are non-null and structurally
different, and collides exactly as documented: two columns with equal
names and no resolvable reference get the same key. -/
theorem keyForColumn_spec (c1 c2 : Column) :
    (∀ r1 r2, fieldRefForColumn c1 none = some r1 → fieldRefForColumn c2 none = some r2 →
      r1 ≠ r2 → keyForColumn c1 ≠ keyForColumn c2) ∧
    (fieldRefForColumn c1 none = none → fieldRefForColumn c2 none = none →
      c1.name = c2.name → keyForColumn c1 = keyForColumn c2) := by
  constructor
  · intro r1 r2 h1 h2 hne
    simp [keyForColumn, h1, h2, hne]
  · intro h1 h2 hn
    simp [keyForColumn, h1, h2, hn]

/-- C5 witness: two columns with different field references get
different keys. -/
theorem keyForColumn_spec_witness :
    keyForColumn plainColumn ≠ keyForColumn fkColumn :=
  (keyForColumn_spec plainColumn fkColumn).1 (FieldRef.fieldId 7) (FieldRef.fkLegacy 5 2)
    rfl rfl (by decide)

/-- C3: `findColumnIndexForColumnSetting` returns the first
normalized-fieldRef match when the setting's `fieldRef` normalizes to a
non-null value and some column matches (taking precedence over any name
match); only when that path finds nothing does it return the first name
match; `-1` when neither path matches. -/
theorem findColumnIndexForColumnSetting_spec (columns : List Column) (cs : ColumnSetting) :
    (∀ fr j, normalizeFieldRef cs.fieldRef = some fr → 0 ≤ j →
      findIndexJS (fun col => normalizeFieldRef (fieldRefForColumn col none) == some fr)
        columns = j →
      findColumnIndexForColumnSetting columns cs = j) ∧
    ((∀ fr, normalizeFieldRef cs.fieldRef = some fr →
        findIndexJS (fun col => normalizeFieldRef (fieldRefForColumn col none) == some fr)
          columns = -1) →
      findColumnIndexForColumnSetting columns cs =
        findIndexJS (fun col => col.name == cs.name) columns) ∧
    ((∀ fr, normalizeFieldRef cs.fieldRef = some fr →
        findIndexJS (fun col => normalizeFieldRef (fieldRefForColumn col none) == some fr)
          columns = -1) →
      findIndexJS (fun col => col.name == cs.name) columns = -1 →
      findColumnIndexForColumnSetting columns cs = -1) := by
  refine ⟨?_, ?_, ?_⟩
  · intro fr j hfr hj hidx
    simp [findColumnIndexForColumnSetting, hfr, hidx, hj]
  · intro hnone
    cases h : normalizeFieldRef cs.fieldRef with
    | none => simp [findColumnIndexForColumnSetting, h]
    | some fr =>
      have hm := hnone fr h
      simp [findColumnIndexForColumnSetting, h, hm]
  · intro hnone hname
    cases h : normalizeFieldRef cs.fieldRef with
    | none => simp [findColumnIndexForColumnSetting, h, hname]
    | some fr =>
      have hm := hnone fr h
      simp [findColumnIndexForColumnSetting, h, hm, hname]

/-- C3 witness: with `[plainColumn, fkColumn]` and a setting whose
`fieldRef` points at the fk column while its name matches the plain
column, the fieldRef match at index 1 wins over the name match at 0. -/
theorem findColumnIndexForColumnSetting_spec_witness :
    findColumnIndexForColumnSetting [plainColumn, fkColumn]
      ⟨"x", some (FieldRef.fkLegacy 5 2), true⟩ = 1 :=
  (findColumnIndexForColumnSetting_spec [plainColumn, fkColumn]
      ⟨"x", some (FieldRef.fkLegacy 5 2), true⟩).1
    (FieldRef.fkNormalized 5 2) 1 (by decide) (by decide) (by decide)

/-- C6: when the question's query is not structured or no `table.columns`
setting exists, `syncTableColumnsToQuery` returns the question
unchanged. -/
theorem syncTableColumnsToQuery_noop (question : Question)
    (h : question.query = Query.native ∨ question.settings.tableColumns = none) :
    syncTableColumnsToQuery question = question := by
  obtain ⟨q, tc⟩ := question
  obtain ⟨oc⟩ := tc
  dsimp only at h
  rcases h with h | h
  · subst h
    cases oc <;> rfl
  · subst h
    cases q <;> rfl

/-- C6 witness: a native-query question with a `table.columns` setting is
returned unchanged. -/
theorem syncTableColumnsToQuery_noop_witness :
    syncTableColumnsToQuery ⟨Query.native, ⟨some []⟩⟩ = ⟨Query.native, ⟨some []⟩⟩ :=
  syncTableColumnsToQuery_noop ⟨Query.native, ⟨some []⟩⟩ (Or.inl rfl)

theorem findColumnIndexForColumnSetting_dichotomy (columns : List Column) (cs : ColumnSetting) :
    0 ≤ findColumnIndexForColumnSetting columns cs ∨
    findColumnIndexForColumnSetting columns cs = -1 := by
  cases h : normalizeFieldRef cs.fieldRef with
  | none =>
    simp only [findColumnIndexForColumnSetting, h]
    exact findIndexJS_dichotomy _ _
  | some fr =>
    simp only [findColumnIndexForColumnSetting, h]
    by_cases hidx : findIndexJS
        (fun col => normalizeFieldRef (fieldRefForColumn col none) == some fr) columns ≥ 0
    · rw [if_pos hidx]
      exact Or.inl hidx
    · rw [if_neg hidx]
      exact findIndexJS_dichotomy _ _

theorem addSettingField_skip (dims : List Dimension) (names : List String)
    (query : StructuredQuery) (s : ColumnSetting)
    (hf : s.fieldRef = none)
    (h : s.name = "" ∨ names.findIdx? (fun n => n == s.name) = none) :
    addSettingField dims names query s = query := by
  rcases h with h | h
  · simp [addSettingField, hf, h]
  · simp [addSettingField, hf, h]

/-- C9: absence of a match is reported through sentinel values, never by
raising an error: a negative result of `findColumnIndexForColumnSetting`
is exactly `-1` and makes `findColumnForColumnSetting` return `null`,
and in the rebuild loop of `syncTableColumnsToQuery` an enabled setting
that resolves neither by `fieldRef` nor by name is skipped (with a
diagnostic), leaving the fold over the remaining settings unaffected. -/
theorem library_sentinels (columns : List Column) (cs : ColumnSetting)
    (q0 : StructuredQuery) (pre post : List ColumnSetting) (s : ColumnSetting) :
    (findColumnIndexForColumnSetting columns cs < 0 →
      findColumnIndexForColumnSetting columns cs = -1 ∧
      findColumnForColumnSetting columns cs = none) ∧
    (s.fieldRef = none →
      (s.name = "" ∨
        q0.clearFields.columnNames.findIdx? (fun n => n == s.name) = none) →
      rebuildFields q0 (pre ++ s :: post) = rebuildFields q0 (pre ++ post)) := by
  constructor
  · intro hneg
    have hd := findColumnIndexForColumnSetting_dichotomy columns cs
    have hm1 : findColumnIndexForColumnSetting columns cs = -1 := by
      rcases hd with hd | hd
      · omega
      · exact hd
    refine ⟨hm1, ?_⟩
    simp [findColumnForColumnSetting, hm1]
  · intro hf hskip
    simp only [rebuildFields, List.foldl_append, List.foldl_cons]
    rw [addSettingField_skip _ _ _ _ hf hskip]

/-- C9 witness: an unresolvable setting yields `null` from
`findColumnForColumnSetting`, and a nameless enabled setting is skipped
by the rebuild. -/
theorem library_sentinels_witness :
    findColumnForColumnSetting [] ⟨"z", none, true⟩ = none ∧
    rebuildFields ⟨[], none⟩ ([] ++ (⟨"", none, true⟩ : ColumnSetting) :: []) =
      rebuildFields ⟨[], none⟩ ([] ++ []) := by
  constructor
  · exact ((library_sentinels [] ⟨"z", none, true⟩ ⟨[], none⟩ [] []
      ⟨"", none, true⟩).1 (by decide)).2
  · exact (library_sentinels [] ⟨"z", none, true⟩ ⟨[], none⟩ [] []
      ⟨"", none, true⟩).2 rfl (Or.inl rfl)

theorem zip_all_isSameBase_iff (A B : List Dimension) :
    ((A.length == B.length) &&
      (A.zip B).all (fun p => p.1.isSameBaseDimension p.2)) = true ↔
    (A.length = B.length ∧ ∀ i (h1 : i < A.length) (h2 : i < B.length),
      (A.get ⟨i, h1⟩).isSameBaseDimension (B.get ⟨i, h2⟩) = true) := by
  rw [Bool.and_eq_true, beq_iff_eq, List.all_eq_true]
  constructor
  · rintro ⟨hlen, hall⟩
    refine ⟨hlen, fun i h1 h2 => ?_⟩
    have hz : i < (A.zip B).length := by
      rw [List.length_zip]; omega
    have hmem := hall ((A.zip B).get ⟨i, hz⟩) (List.get_mem _ _ hz)
    rwa [List.get_zip] at hmem
  · rintro ⟨hlen, h⟩
    refine ⟨hlen, fun p hp => ?_⟩
    obtain ⟨⟨i, hi⟩, rfl⟩ := List.mem_iff_get.mp hp
    have hi' := hi
    rw [List.length_zip] at hi'
    rw [List.get_zip]
    exact h i (by omega) (by omega)

/-- C1: on a structured query with a `table.columns` setting, when the
dimensions recomputed after the rebuild have the same length as the
baseline and are pairwise the same base dimension,
`syncTableColumnsToQuery` returns the question with the explicit field
list cleared (the default field set); otherwise it returns the question
with the rebuilt explicit field list applied. -/
theorem syncTableColumnsToQuery_collapse (q0 : StructuredQuery) (cs : List ColumnSetting)
    (vs : VisualizationSettings) (hvs : vs.tableColumns = some cs) :
    ((q0.clearFields.columnDimensions.length =
        (rebuildFields q0 cs).columnDimensions.length ∧
      ∀ i (h1 : i < q0.clearFields.columnDimensions.length)
        (h2 : i < (rebuildFields q0 cs).columnDimensions.length),
        (q0.clearFields.columnDimensions.get ⟨i, h1⟩).isSameBaseDimension
          ((rebuildFields q0 cs).columnDimensions.get ⟨i, h2⟩) = true) →
      (syncTableColumnsToQuery ⟨Query.structured q0, vs⟩ =
        ⟨Query.structured (rebuildFields q0 cs).clearFields, vs⟩ ∧
       (rebuildFields q0 cs).clearFields.fields = none)) ∧
    (¬ (q0.clearFields.columnDimensions.length =
          (rebuildFields q0 cs).columnDimensions.length ∧
        ∀ i (h1 : i < q0.clearFields.columnDimensions.length)
          (h2 : i < (rebuildFields q0 cs).columnDimensions.length),
          (q0.clearFields.columnDimensions.get ⟨i, h1⟩).isSameBaseDimension
            ((rebuildFields q0 cs).columnDimensions.get ⟨i, h2⟩) = true) →
      syncTableColumnsToQuery ⟨Query.structured q0, vs⟩ =
        ⟨Query.structured (rebuildFields q0 cs), vs⟩) := by
  constructor
  · intro h
    have hb := (zip_all_isSameBase_iff q0.clearFields.columnDimensions
      (rebuildFields q0 cs).columnDimensions).mpr h
    refine ⟨?_, rfl⟩
    simp only [syncTableColumnsToQuery, hvs]
    rw [if_pos hb]
  · intro h
    have hb : ((q0.clearFields.columnDimensions.length ==
        (rebuildFields q0 cs).columnDimensions.length) &&
        (q0.clearFields.columnDimensions.zip
          (rebuildFields q0 cs).columnDimensions).all
          (fun p => p.1.isSameBaseDimension p.2)) ≠ true :=
      fun hc => h ((zip_all_isSameBase_iff _ _).mp hc)
    simp only [syncTableColumnsToQuery, hvs]
    rw [if_neg hb]

/-- C1 witness: a one-column question whose only setting re-adds the
default column collapses back to the default field set. -/
theorem syncTableColumnsToQuery_collapse_witness :
    syncTableColumnsToQuery
        ⟨Query.structured ⟨[⟨FieldRef.fieldId 1, "A"⟩], none⟩,
          ⟨some [⟨"A", some (FieldRef.fieldId 1), true⟩]⟩⟩ =
      ⟨Query.structured
          ((rebuildFields ⟨[⟨FieldRef.fieldId 1, "A"⟩], none⟩
            [⟨"A", some (FieldRef.fieldId 1), true⟩]).clearFields),
        ⟨some [⟨"A", some (FieldRef.fieldId 1), true⟩]⟩⟩ :=
  ((syncTableColumnsToQuery_collapse ⟨[⟨FieldRef.fieldId 1, "A"⟩], none⟩
      [⟨"A", some (FieldRef.fieldId 1), true⟩]
      ⟨some [⟨"A", some (FieldRef.fieldId 1), true⟩]⟩ rfl).1 (by decide)).1
